import Mathlib

/-!
Verification development for the VoiceShop repository (a voice-command
shopping assistant).  The definitions below are shallow embeddings of the
JavaScript source files:

  * `backend/services/searchService.js` — deterministic price-constraint extractor
  * `backend/data/catalog.js`           — product catalog and `searchCatalog`
  * `backend/data/store.js`             — in-memory shopping list
  * `services/suggestionService.js`     — advice / suggestion classifier
  * `services/translationService.js`    — translation gateway
  * `services/intentParser.js`          — LLM intent extractor
  * `routes/nlpRoutes.js`               — the `/api/process` pipeline glue

JavaScript numbers are modelled as `ℚ` (all numbers the code manipulates are
short decimals, on which IEEE double comparison agrees with rational
comparison).  JavaScript regular expressions are modelled by a small
backtracking engine (`RE` / `mrun`) with the same alternation order, greedy
quantifiers and leftmost-match rule as the JS engine.  External effects
(network calls, `JSON.parse`, wall-clock time, `Math.random`) enter as
explicit parameters.  `\s`, `trim` and `toLowerCase` are modelled on the
ASCII range, which covers every character the embedded pattern literals and
catalog data contain.
-/

namespace VoiceShop

/-! ## JS string primitives -/

/-- ASCII lowercasing of one character, as `String.prototype.toLowerCase`
acts on the ASCII range. -/
def jsLowerChar (c : Char) : Char :=
  if 'A' ≤ c && c ≤ 'Z' then Char.ofNat (c.toNat + 32) else c

/-- Lowercase a character list. -/
def lowerL (l : List Char) : List Char := l.map jsLowerChar

/-- `text.toLowerCase()`. -/
def jsToLower (s : String) : String := String.mk (lowerL s.toList)

/-- Whitespace characters recognised by JS `\s` / `trim` (ASCII range:
space, tab, line feed, carriage return, vertical tab, form feed). -/
def isWsChar (c : Char) : Bool :=
  c.toNat = 32 || c.toNat = 9 || c.toNat = 10 || c.toNat = 13 || c.toNat = 11 || c.toNat = 12

/-- Drop leading and trailing whitespace from a character list. -/
def trimChars (l : List Char) : List Char :=
  ((l.dropWhile isWsChar).reverse.dropWhile isWsChar).reverse

/-- `text.trim()`. -/
def jsTrim (s : String) : String := String.mk (trimChars s.toList)

/-- If `pat` is a prefix of `s`, return the rest of `s`. -/
def stripPrefixCh : List Char → List Char → Option (List Char)
  | [], s => some s
  | _ :: _, [] => none
  | p :: ps, c :: cs => if p = c then stripPrefixCh ps cs else none

/-- `s` contains `pat` as a contiguous subsequence (JS `String.prototype.includes`). -/
def containsSeq : List Char → List Char → Bool
  | s, pat =>
    match stripPrefixCh pat s with
    | some _ => true
    | none => match s with
      | [] => false
      | _ :: t => containsSeq t pat

/-- `s.includes(sub)`. -/
def jsIncludes (s sub : String) : Bool := containsSeq s.toList sub.toList

/-! ## A small backtracking regex engine

Only the constructs used by the source's regex literals are modelled:
literals, single-character classes, concatenation, ordered alternation,
greedy `?`, greedy `*` over a character class, and a single capture group.
`mrun` is continuation-passing: alternatives are tried in order, greedy
quantifiers consume the most first and give back on continuation failure —
the same backtracking order as the JS engine. -/

inductive RE where
  | lit : List Char → RE
  | cls : (Char → Bool) → RE
  | cat : RE → RE → RE
  | alt : RE → RE → RE
  | opt : RE → RE
  | star : (Char → Bool) → RE
  | group : RE → RE

/-- Greedy loop for `star`: try consuming `n` characters, then `n-1`, … then `0`. -/
def starLoop {α : Type} (k : List Char → Option (List Char) → Option α)
    (cap : Option (List Char)) (s : List Char) : Nat → Option α
  | 0 => k s cap
  | n + 1 => (k (s.drop (n + 1)) cap) <|> starLoop k cap s n

/-- Run regex `r` against `s` with current group-1 capture `cap` and
continuation `k` (receiving the remaining input and the capture). -/
def mrun {α : Type} (r : RE) (s : List Char) (cap : Option (List Char))
    (k : List Char → Option (List Char) → Option α) : Option α :=
  match r with
  | .lit cs =>
    match stripPrefixCh cs s with
    | some rest => k rest cap
    | none => none
  | .cls f =>
    match s with
    | [] => none
    | c :: rest => if f c then k rest cap else none
  | .cat r1 r2 => mrun r1 s cap (fun s1 c1 => mrun r2 s1 c1 k)
  | .alt r1 r2 => (mrun r1 s cap k) <|> (mrun r2 s cap k)
  | .opt r1 => (mrun r1 s cap k) <|> k s cap
  | .star f => starLoop k cap s (s.takeWhile f).length
  | .group r1 =>
    mrun r1 s cap (fun s1 _ => k s1 (some (s.take (s.length - s1.length))))

/-- Try to match `r` at the start of `s`; on success return the matched span
(`match[0]`) and the group-1 capture (`match[1]`). -/
def matchHere (r : RE) (s : List Char) : Option (List Char × Option (List Char)) :=
  mrun r s none (fun rest cap => some (s.take (s.length - rest.length), cap))

/-- JS `String.prototype.match` without the `g` flag: leftmost match. -/
def jsMatch (r : RE) : List Char → Option (List Char × Option (List Char))
  | [] => matchHere r []
  | c :: t => (matchHere r (c :: t)) <|> jsMatch r t

/-- Literal regex component from a string. -/
def strLit (s : String) : RE := .lit s.toList

def digitCls (c : Char) : Bool := '0' ≤ c && c ≤ '9'

def currencyCls (c : Char) : Bool := c = '$' || c = '£' || c = '€'

/-- `\d+(?:\.\d{1,2})?` (greedy `+` as one mandatory char followed by `*`). -/
def numberRE : RE :=
  .cat (.cls digitCls)
    (.cat (.star digitCls)
      (.opt (.cat (.lit ['.']) (.cat (.cls digitCls) (.opt (.cls digitCls))))))

/-- Common tail of the three price regexes:
`\s*(?:[\$\xA3€])?\s*(\d+(?:\.\d{1,2})?)\s*(?:dollars|bucks)?`. -/
def priceTailRE : RE :=
  .cat (.star isWsChar)
    (.cat (.opt (.cls currencyCls))
      (.cat (.star isWsChar)
        (.cat (.group numberRE)
          (.cat (.star isWsChar)
            (.opt (.alt (strLit "dollars") (strLit "bucks")))))))

/-- `lessThanRegex` from searchService.js:
`/(?:under|below|less than|max(?:imum)?)\s*(?:[\$\xA3€])?\s*(\d+(?:\.\d{1,2})?)\s*(?:dollars|bucks)?/i`
(the input is already lowercased, so the `i` flag is inert). -/
def lessThanRE : RE :=
  .cat (.alt (strLit "under")
         (.alt (strLit "below")
           (.alt (strLit "less than")
             (.cat (strLit "max") (.opt (strLit "imum"))))))
    priceTailRE

/-- `greaterThanRegex` from searchService.js. -/
def greaterThanRE : RE :=
  .cat (.alt (strLit "above")
         (.alt (strLit "over")
           (.alt (strLit "more than")
             (.alt (.cat (strLit "min") (.opt (strLit "imum")))
               (strLit "greater than")))))
    priceTailRE

/-- `equalRegex` from searchService.js. -/
def equalRE : RE :=
  .cat (.alt (strLit "exactly") (strLit "for")) priceTailRE

/-! ## Decimal parsing (`parseFloat` on a `\d+(\.\d{1,2})?` capture) -/

def digitsToNat : List Char → Nat → Nat
  | [], acc => acc
  | c :: t, acc => digitsToNat t (acc * 10 + (c.toNat - '0'.toNat))

/-- `parseFloat` on a string drawn from the numeric capture group: an integer
part optionally followed by `.` and one or two fractional digits. -/
def parseDecimal (g : List Char) : ℚ :=
  let ip := g.takeWhile digitCls
  let rest := g.dropWhile digitCls
  match rest with
  | '.' :: fs => (digitsToNat ip 0 : ℚ) + (digitsToNat fs 0 : ℚ) / ((10 : ℚ) ^ fs.length)
  | _ => (digitsToNat ip 0 : ℚ)

/-! ## JS runtime values -/

/-- JavaScript values as far as the embedded code inspects them.  `undef` is
`undefined` (absent property); `obj` keeps properties in declaration order. -/
inductive JsVal where
  | null : JsVal
  | undef : JsVal
  | bool : Bool → JsVal
  | num : ℚ → JsVal
  | str : String → JsVal
  | arr : List JsVal → JsVal
  | obj : List (String × JsVal) → JsVal

/-- JS truthiness. -/
def jsTruthy : JsVal → Bool
  | .null => false
  | .undef => false
  | .bool b => b
  | .num x => x ≠ 0
  | .str s => s ≠ ""
  | .arr _ => true
  | .obj _ => true

def JsVal.isStr : JsVal → Bool
  | .str _ => true
  | _ => false

/-- Property access `v.k`: throws on `null`/`undefined`, looks a key up on an
object, and yields `undefined` on every other value. -/
def jsGet : JsVal → String → Except String JsVal
  | .null, _ => .error "TypeError: cannot read properties of null"
  | .undef, _ => .error "TypeError: cannot read properties of undefined"
  | .obj kvs, key => .ok (((kvs.find? (fun kv => kv.1 == key)).map (·.2)).getD .undef)
  | _, _ => .ok (.undef)

/-! ## searchService.js — `extractPriceConstraint` -/

inductive PriceOp where
  | LESS_THAN
  | GREATER_THAN
  | EQUAL
deriving DecidableEq

structure PriceConstraint where
  operator : PriceOp
  value : ℚ
deriving DecidableEq

/-- The `m = lowerText.match(re); if (m && m[1])` idiom: a successful match
whose first capture group is a truthy (non-empty) string. -/
def matchGroup1 (re : RE) (s : List Char) : Option (List Char) :=
  match jsMatch re s with
  | some (_, some g) => if g.isEmpty then none else some g
  | _ => none

/-- Body of `extractPriceConstraint` after the type guard; the three pattern
families are tried in the source's fixed order with early return. -/
def priceCore (lowerText : List Char) : Option PriceConstraint :=
  match matchGroup1 lessThanRE lowerText with
  | some g => some ⟨.LESS_THAN, parseDecimal g⟩
  | none =>
    match matchGroup1 greaterThanRE lowerText with
    | some g => some ⟨.GREATER_THAN, parseDecimal g⟩
    | none =>
      match matchGroup1 equalRE lowerText with
      | some g => some ⟨.EQUAL, parseDecimal g⟩
      | none => none

/-- `extractPriceConstraint(text)` on an arbitrary JS value.  The result is
`Except` so that a thrown `TypeError` (which the guard provably prevents)
would be visible; `.ok none` is the source's `null`. -/
def extractPriceConstraint (text : JsVal) : Except String (Option PriceConstraint) :=
  if !(jsTruthy text) || !(text.isStr) then .ok none
  else
    match text with
    | .str s => .ok (priceCore (lowerL s.toList))
    | _ => .error "TypeError: text.toLowerCase is not a function"

/-! ## catalog.js — products, filters and `searchCatalog` -/

structure Product where
  id : Nat
  name : String
  brand : String
  size : String
  price : ℚ
  category : String
  tags : List String
deriving DecidableEq

/-- The fixed in-memory catalog (catalog.js), in declaration order. -/
def CATALOG : List Product := [
  ⟨1, "apples", "FreshFarm", "1 kg", 3.99, "Fruits", ["fresh", "organic"]⟩,
  ⟨2, "apples", "OrganicVale", "1 kg", 5.49, "Fruits", ["organic", "premium"]⟩,
  ⟨3, "bananas", "TropicBest", "6 pack", 1.99, "Fruits", ["fresh"]⟩,
  ⟨4, "oranges", "SunGrove", "1 kg", 2.99, "Fruits", ["fresh", "vitamin c"]⟩,
  ⟨5, "mango", "TropicBest", "500 g", 3.49, "Fruits", ["tropical", "fresh"]⟩,
  ⟨6, "strawberries", "BerryFresh", "250 g", 4.29, "Fruits", ["fresh", "organic"]⟩,
  ⟨7, "tomatoes", "GardenPick", "500 g", 1.49, "Vegetables", ["fresh"]⟩,
  ⟨8, "spinach", "GreenLeaf", "200 g", 2.19, "Vegetables", ["organic", "fresh"]⟩,
  ⟨9, "broccoli", "FreshFields", "400 g", 2.49, "Vegetables", ["fresh", "organic"]⟩,
  ⟨10, "onions", "FarmSelect", "1 kg", 0.99, "Vegetables", ["fresh"]⟩,
  ⟨11, "carrots", "GreenLeaf", "500 g", 1.29, "Vegetables", ["organic", "fresh"]⟩,
  ⟨12, "milk", "DairyBest", "1 L", 1.29, "Dairy", ["whole milk"]⟩,
  ⟨13, "milk", "DairyBest", "2 L", 2.09, "Dairy", ["whole milk", "family"]⟩,
  ⟨14, "almond milk", "NutriBlend", "1 L", 3.49, "Dairy", ["vegan", "lactose free", "plant based"]⟩,
  ⟨15, "oat milk", "OatWave", "1 L", 3.79, "Dairy", ["vegan", "plant based"]⟩,
  ⟨16, "butter", "CreamyFarm", "250 g", 2.79, "Dairy", ["unsalted"]⟩,
  ⟨17, "butter", "LuxeCream", "500 g", 4.99, "Dairy", ["premium", "salted"]⟩,
  ⟨18, "cheddar cheese", "CheeseHouse", "200 g", 3.99, "Dairy", ["sharp", "aged"]⟩,
  ⟨19, "greek yogurt", "CreamyFarm", "500 g", 2.99, "Dairy", ["probiotic", "low fat"]⟩,
  ⟨20, "toothpaste", "BrightSmile", "100 ml", 2.49, "Personal Care", ["whitening", "mint"]⟩,
  ⟨21, "toothpaste", "DentaFresh", "150 ml", 3.99, "Personal Care", ["sensitive", "fluoride"]⟩,
  ⟨22, "toothpaste", "AquaClean", "200 ml", 4.99, "Personal Care", ["herbal", "natural"]⟩,
  ⟨23, "shampoo", "HairLux", "400 ml", 5.99, "Personal Care", ["moisturizing", "all hair types"]⟩,
  ⟨24, "shampoo", "NatureCare", "300 ml", 4.49, "Personal Care", ["organic", "sulfate free"]⟩,
  ⟨25, "body wash", "SkinSoft", "500 ml", 3.99, "Personal Care", ["moisturizing", "gentle"]⟩,
  ⟨26, "deodorant", "FreshGuard", "150 ml", 3.49, "Personal Care", ["antiperspirant", "24hr"]⟩,
  ⟨27, "basmati rice", "GrainMaster", "1 kg", 2.99, "Grains & Staples", ["long grain", "aromatic"]⟩,
  ⟨28, "basmati rice", "RoyalGrain", "5 kg", 12.99, "Grains & Staples", ["premium", "long grain"]⟩,
  ⟨29, "whole wheat bread", "BakeWell", "400 g", 1.99, "Bakery", ["fiber rich", "healthy"]⟩,
  ⟨30, "whole wheat bread", "NatureBake", "600 g", 3.49, "Bakery", ["multigrain", "organic"]⟩,
  ⟨31, "pasta", "ItalianChoice", "500 g", 1.49, "Grains & Staples", ["whole wheat"]⟩,
  ⟨32, "oats", "MorningBest", "500 g", 2.29, "Grains & Staples", ["rolled oats", "fiber"]⟩,
  ⟨33, "orange juice", "SunPress", "1 L", 2.99, "Beverages", ["no sugar", "100% juice"]⟩,
  ⟨34, "green tea", "LeafZen", "25 bags", 3.49, "Beverages", ["antioxidant", "organic"]⟩,
  ⟨35, "coffee", "BrewCraft", "250 g", 6.99, "Beverages", ["arabica", "medium roast"]⟩,
  ⟨36, "sparkling water", "AquaFizz", "1 L", 1.29, "Beverages", ["zero calories", "sugar free"]⟩,
  ⟨37, "dish soap", "SparkleClean", "500 ml", 1.99, "Cleaning", ["grease cutting", "lemon"]⟩,
  ⟨38, "laundry detergent", "WashPro", "1 kg", 5.99, "Cleaning", ["concentrated", "fresh scent"]⟩,
  ⟨39, "laundry detergent", "EcoWash", "1.5 kg", 8.49, "Cleaning", ["eco friendly", "plant based"]⟩]

/-- The `filters` object of `searchCatalog`: each field is `null`/absent
(`none`) or present. -/
structure Filters where
  brand : Option String := none
  maxPrice : Option ℚ := none
  minPrice : Option ℚ := none
  size : Option String := none
  qualifier : Option String := none
deriving DecidableEq

/-- The filter predicate of `searchCatalog` (the body of `CATALOG.filter`).
String-valued filters are guarded by JS truthiness (`if (filters.brand)`),
so `some ""` is inactive, like `null`. -/
def searchFilterPred (q : List Char) (f : Filters) (p : Product) : Bool :=
  (containsSeq p.name.toList q || containsSeq q p.name.toList)
  && (match f.brand with
      | some b => if b = "" then true else containsSeq (lowerL p.brand.toList) (lowerL b.toList)
      | none => true)
  && (match f.maxPrice with
      | some m => decide (p.price ≤ m)
      | none => true)
  && (match f.minPrice with
      | some m => decide (m ≤ p.price)
      | none => true)
  && (match f.size with
      | some sz => if sz = "" then true else containsSeq (lowerL p.size.toList) (lowerL sz.toList)
      | none => true)
  && (match f.qualifier with
      | some ql => if ql = "" then true
          else (p.tags.any (fun t => containsSeq t.toList (lowerL ql.toList))
                || containsSeq p.name.toList (lowerL ql.toList))
      | none => true)

/-- Stable insertion: place `a` before the first element whose price is
`≥ a.price` (so equal-priced earlier elements stay in front). -/
def insertP (a : Product) : List Product → List Product
  | [] => [a]
  | b :: t => if a.price ≤ b.price then a :: b :: t else b :: insertP a t

/-- Stable insertion sort by ascending price, modelling JS
`results.sort((a, b) => a.price - b.price)` (ES2019 `sort` is stable). -/
def isortByPrice : List Product → List Product
  | [] => []
  | a :: t => insertP a (isortByPrice t)

/-- `searchCatalog(query, filters)` from catalog.js. -/
def searchCatalog (query : String) (f : Filters) : List Product :=
  let q := trimChars (lowerL query.toList)
  isortByPrice (CATALOG.filter (searchFilterPred q f))

/-! ## nlpRoutes.js — the SEARCH_ITEM filter-building block -/

/-- The intent object as the route handler reads it when building filters
(`intent.brand`, `intent.maxPrice`, …; absent fields are `none`). -/
structure RouteIntent where
  brand : Option String := none
  maxPrice : Option ℚ := none
  minPrice : Option ℚ := none
  size : Option String := none
  qualifier : Option String := none
deriving DecidableEq

/-- `x || null` on an optional string field. -/
def strOrNull : Option String → Option String
  | some s => if s = "" then none else some s
  | none => none

/-- The SEARCH_ITEM block of `POST /api/process`: build the filter object
from the intent, then apply the deterministic price-constraint override. -/
def buildSearchFilters (intent : RouteIntent) (priceConstraint : Option PriceConstraint) :
    Filters :=
  let base : Filters :=
    ⟨strOrNull intent.brand, intent.maxPrice, intent.minPrice,
     strOrNull intent.size, strOrNull intent.qualifier⟩
  match priceConstraint with
  | none => base
  | some pc =>
    let f1 := if pc.operator = .LESS_THAN then { base with maxPrice := some pc.value } else base
    let f2 := if pc.operator = .GREATER_THAN then { f1 with minPrice := some pc.value } else f1
    if pc.operator = .EQUAL then { f2 with maxPrice := some pc.value, minPrice := some pc.value } else f2

/-- The filters that the route hands to `searchCatalog` for query text
`englishText` (`extractPriceConstraint` cannot throw on a string; the
`.error` branch is dead code kept for totality). -/
def routeFilters (intent : RouteIntent) (englishText : String) : Filters :=
  match extractPriceConstraint (.str englishText) with
  | .ok pc => buildSearchFilters intent pc
  | .error _ => buildSearchFilters intent none

/-- `G` extends the filter set `F` with one additional active filter. -/
def ExtendsOne (F G : Filters) : Prop :=
  (F.brand = none ∧ ∃ b, G = { F with brand := some b })
  ∨ (F.maxPrice = none ∧ ∃ m, G = { F with maxPrice := some m })
  ∨ (F.minPrice = none ∧ ∃ m, G = { F with minPrice := some m })
  ∨ (F.size = none ∧ ∃ s, G = { F with size := some s })
  ∨ (F.qualifier = none ∧ ∃ q, G = { F with qualifier := some q })

/-! ## store.js — the in-memory shopping list -/

structure StoreItem where
  id : Nat
  name : String
  quantity : ℚ
  category : String
  addedAt : String
deriving DecidableEq

structure HistEntry where
  count : Nat
  lastAdded : Option String
deriving DecidableEq

/-- Module-level mutable state of store.js, passed explicitly. -/
structure StoreState where
  shoppingList : List StoreItem := []
  nextId : Nat := 1
  purchaseHistory : List (String × HistEntry) := []
deriving DecidableEq

/-- `CATEGORY_MAP` (keyword → category), in declaration order. -/
def CATEGORY_MAP : List (String × String) := [
  ("apple", "Fruits"), ("banana", "Fruits"), ("mango", "Fruits"),
  ("orange", "Fruits"), ("grape", "Fruits"), ("strawberry", "Fruits"),
  ("watermelon", "Fruits"), ("pineapple", "Fruits"), ("lemon", "Fruits"), ("kiwi", "Fruits"),
  ("onion", "Vegetables"), ("tomato", "Vegetables"), ("potato", "Vegetables"),
  ("carrot", "Vegetables"), ("spinach", "Vegetables"), ("broccoli", "Vegetables"),
  ("cucumber", "Vegetables"), ("garlic", "Vegetables"), ("ginger", "Vegetables"),
  ("pepper", "Vegetables"),
  ("milk", "Dairy"), ("butter", "Dairy"), ("cheese", "Dairy"), ("yogurt", "Dairy"),
  ("cream", "Dairy"), ("paneer", "Dairy"), ("curd", "Dairy"),
  ("bread", "Bakery"), ("bun", "Bakery"), ("cake", "Bakery"),
  ("biscuit", "Bakery"), ("cookie", "Bakery"),
  ("juice", "Beverages"), ("water", "Beverages"), ("soda", "Beverages"),
  ("coffee", "Beverages"), ("tea", "Beverages"), ("cola", "Beverages"),
  ("rice", "Grains & Staples"), ("wheat", "Grains & Staples"), ("flour", "Grains & Staples"),
  ("oats", "Grains & Staples"), ("pasta", "Grains & Staples"), ("noodles", "Grains & Staples"),
  ("dal", "Grains & Staples"), ("lentil", "Grains & Staples"),
  ("toothpaste", "Personal Care"), ("shampoo", "Personal Care"), ("soap", "Personal Care"),
  ("lotion", "Personal Care"), ("deodorant", "Personal Care"), ("razor", "Personal Care"),
  ("detergent", "Cleaning"), ("bleach", "Cleaning"), ("mop", "Cleaning"),
  ("sponge", "Cleaning"), ("dishwash", "Cleaning")]

/-- `categorize(name)`: first keyword contained in the name wins. -/
def categorize (name : String) : String :=
  match CATEGORY_MAP.find? (fun kv => containsSeq name.toList kv.1.toList) with
  | some kv => kv.2
  | none => "General"

/-- `name.toLowerCase().trim()` — the store's name normalisation. -/
def normalizeName (name : String) : String := jsTrim (jsToLower name)

/-- Update of `purchaseHistory[normalizedName]` inside `addItem`. -/
def bumpHistory (h : List (String × HistEntry)) (nm now : String) :
    List (String × HistEntry) :=
  match h.find? (fun kv => kv.1 == nm) with
  | some _ => h.map (fun kv => if kv.1 == nm then (kv.1, ⟨kv.2.count + 1, some now⟩) else kv)
  | none => h ++ [(nm, ⟨1, some now⟩)]

/-- In-place `existing.quantity += quantity` on the first list entry named `nm`. -/
def updateFirstQty (l : List StoreItem) (nm : String) (q : ℚ) : List StoreItem :=
  match l with
  | [] => []
  | it :: t => if it.name == nm then { it with quantity := it.quantity + q } :: t
               else it :: updateFirstQty t nm q

/-- `category || categorize(normalizedName)` (a falsy category argument
falls back to auto-categorisation). -/
def categoryOrDefault (category : Option String) (norm : String) : String :=
  match category with
  | some c => if c = "" then categorize norm else c
  | none => categorize norm

/-- `addItem(name, quantity, category)` from store.js; `now` stands for
`new Date().toISOString()`.  Returns the created or updated item and the
new store state. -/
def addItem (name : String) (quantity : ℚ) (category : Option String) (now : String)
    (st : StoreState) : StoreItem × StoreState :=
  let norm := normalizeName name
  let hist := bumpHistory st.purchaseHistory norm now
  match st.shoppingList.find? (fun it => it.name == norm) with
  | some existing =>
    ({ existing with quantity := existing.quantity + quantity },
     { st with shoppingList := updateFirstQty st.shoppingList norm quantity,
               purchaseHistory := hist })
  | none =>
    let newItem : StoreItem :=
      ⟨st.nextId, norm, quantity, categoryOrDefault category norm, now⟩
    (newItem,
     { shoppingList := st.shoppingList ++ [newItem], nextId := st.nextId + 1,
       purchaseHistory := hist })

/-! ## suggestionService.js — substitutes and the advice classifier -/

def FREQUENTLY_USED : List (String × String) := [
  ("milk", "Dairy"), ("bread", "Bakery"), ("eggs", "General"),
  ("rice", "Grains & Staples"), ("onion", "Vegetables"), ("tomato", "Vegetables"),
  ("banana", "Fruits"), ("butter", "Dairy"), ("sugar", "Grains & Staples"),
  ("salt", "Grains & Staples"), ("cooking oil", "General"), ("toothpaste", "Personal Care")]

def SUBSTITUTES : List (String × List String) := [
  ("milk", ["almond milk", "oat milk", "soy milk"]),
  ("butter", ["margarine", "coconut oil"]),
  ("sugar", ["honey", "jaggery", "stevia"]),
  ("bread", ["whole wheat bread", "multigrain bread"]),
  ("rice", ["brown rice", "quinoa"]),
  ("flour", ["almond flour", "oat flour"]),
  ("cola", ["sparkling water", "lemon soda"]),
  ("cheese", ["tofu", "paneer"]),
  ("cream", ["coconut cream", "yogurt"]),
  ("pasta", ["whole wheat pasta", "zucchini noodles"])]

def SEASONAL_BY_MONTH : List (Nat × List String) := [
  (0, ["peas", "carrot", "strawberry"]),
  (1, ["mango", "strawberry", "beet"]),
  (2, ["watermelon", "mango", "cucumber"]),
  (3, ["watermelon", "lemon", "mango"]),
  (4, ["watermelon", "lychee", "peach"]),
  (5, ["cherry", "plum", "corn"]),
  (6, ["peach", "blueberry", "zucchini"]),
  (7, ["peach", "tomato", "sweet corn"]),
  (8, ["apple", "grape", "spinach"]),
  (9, ["apple", "pear", "pumpkin"]),
  (10, ["orange", "sweet potato", "pomegranate"]),
  (11, ["orange", "pea", "carrot"])]

def HEALTHY_OPTIONS : List String := [
  "spinach", "broccoli", "quinoa", "kale", "almonds", "walnuts", "greek yogurt",
  "lentils", "sweet potato", "blueberries", "avocado", "chia seeds"]

/-- `getFrequentItems(limit)`. -/
def getFrequentItems (limit : Nat) : List (String × String) := FREQUENTLY_USED.take limit

/-- `getSubstitutes(itemName)`: exact key first, then bidirectional
substring containment in declaration order. -/
def getSubstitutes (itemName : String) : List String :=
  let key := jsTrim (jsToLower itemName)
  match SUBSTITUTES.find? (fun kv => kv.1 == key) with
  | some kv => kv.2
  | none =>
    match SUBSTITUTES.find? (fun kv =>
        containsSeq key.toList kv.1.toList || containsSeq kv.1.toList key.toList) with
    | some kv => kv.2
    | none => []

/-- `getSeasonalItems()` with the current month (0–11) passed explicitly. -/
def getSeasonalItems (month : Nat) : List String :=
  match SEASONAL_BY_MONTH.find? (fun kv => kv.1 == month) with
  | some kv => kv.2
  | none => []

/-- The `[a-z\s]` class of the substitutes pattern. -/
def subPhraseCls (c : Char) : Bool := ('a' ≤ c && c ≤ 'z') || isWsChar c

/-- `/(?:substitute|alternative|instead)\s+(?:for|of)?\s*([a-z\s]+)/`. -/
def substituteRE : RE :=
  .cat (.alt (strLit "substitute") (.alt (strLit "alternative") (strLit "instead")))
    (.cat (.cat (.cls isWsChar) (.star isWsChar))
      (.cat (.opt (.alt (strLit "for") (strLit "of")))
        (.cat (.star isWsChar)
          (.group (.cat (.cls subPhraseCls) (.star subPhraseCls))))))

/-- `targetItem.replace(/[?!.]/g, '')`. -/
def removePunct (s : String) : String :=
  String.mk (s.toList.filter (fun c => !(c = '?' || c = '!' || c = '.')))

/-- An advice payload `{ type, category, suggestions, message }`. -/
structure AdviceResult where
  type : String
  category : String
  suggestions : List String
  message : String
deriving DecidableEq

/-- `handleAdviceQuestion(text)`.  External effects are parameters:
`runningLow` is `store.getRunningLowItems()`, `shuffleHist`/`shuffleHealthy`
are the `sort(() => 0.5 - Math.random())` shuffles, `month` is
`new Date().getMonth()`. -/
def handleAdviceQuestion (text : String) (runningLow : List String)
    (shuffleHist shuffleHealthy : List String → List String) (month : Nat) :
    Option AdviceResult :=
  let t := jsToLower text
  let sub1 : Option AdviceResult :=
    match jsMatch substituteRE t.toList with
    | some (_, g) =>
      let targetItem := removePunct (jsTrim (String.mk (g.getD [])))
      let subs := getSubstitutes targetItem
      if subs.length > 0 then
        some ⟨"SUBSTITUTE", "substitute", subs,
              "Instead of " ++ targetItem ++ ", you could try these alternatives!"⟩
      else none
    | none => none
  match sub1 with
  | some r => some r
  | none =>
    let isAdvice := ["suggest", "recommend", "what should", "any ideas", "what to buy",
                     "what do i need"].any (fun k => jsIncludes t k)
    let isBestSeason := ["best", "season"].any (fun k => jsIncludes t k)
    let isHealthy := ["healthy", "diet", "nutritious"].any (fun k => jsIncludes t k)
    if !isAdvice && !isBestSeason && !isHealthy then none
    else
      let histRes : Option AdviceResult :=
        if isAdvice && !isBestSeason && !isHealthy then
          if runningLow.length > 0 then
            some ⟨"HISTORY", "history", (shuffleHist runningLow).take 3,
                  "Looking at your past purchases, it looks like you might be running low on these items. 🛒"⟩
          else none
        else none
      match histRes with
      | some r => some r
      | none =>
        if isBestSeason || jsIncludes t "season" || jsIncludes t "fruit" then
          some ⟨"SEASONAL", "seasonal", getSeasonalItems month,
                "Here are some great seasonal picks for this time of year! 🌿"⟩
        else if isHealthy then
          some ⟨"HEALTHY", "healthy", (shuffleHealthy HEALTHY_OPTIONS).take 3,
                "Here are some great nutritious and healthy options for you! 🥗"⟩
        else
          some ⟨"HISTORY", "general", (getFrequentItems 3).map (·.1),
                "I can certainly help you brainstorm! Here are some common staples you might need. 💡"⟩

/-! ## translationService.js — the translation gateway -/

/-- BCP-47 prefix → Helsinki-NLP model id. -/
def TRANSLATION_MODELS : List (String × String) := [
  ("hi", "Helsinki-NLP/opus-mt-hi-en"),
  ("es", "Helsinki-NLP/opus-mt-es-en"),
  ("fr", "Helsinki-NLP/opus-mt-fr-en"),
  ("de", "Helsinki-NLP/opus-mt-de-en"),
  ("ar", "Helsinki-NLP/opus-mt-ar-en")]

/-- `langTag.split("-")[0]`. -/
def takeBeforeDash (t : String) : String := String.mk (t.toList.takeWhile (· ≠ '-'))

/-- `getLangPre` + `fix(langTag)` from translationService.js (the source
name is avoided only for lexical reasons): derive the two-letter code from
a BCP-47 tag; a falsy tag yields `"en"`. -/
def getLangCode (langTag : Option String) : String :=
  match langTag with
  | none => "en"
  | some t => if t = "" then "en" else jsToLower (takeBeforeDash t)

/-- Truthiness of an optional JS string (`undefined`, `null` and `""` are falsy). -/
def optStrTruthy : Option String → Bool
  | none => false
  | some s => s ≠ ""

structure TransResult where
  translatedText : String
  wasTranslated : Bool
deriving DecidableEq

/-- `result[0]?.translation_text` after `Array.isArray(result)` held. -/
def firstTranslationText : List JsVal → JsVal
  | [] => .undef
  | f :: _ =>
    match f with
    | .obj kvs => ((kvs.find? (fun kv => kv.1 == "translation_text")).map (·.2)).getD .undef
    | _ => (.undef)

/-- The `try` block of `translateToEnglish`: the axios call's outcome is the
`backend` parameter (`.error` for a network failure / non-2xx / timeout,
`.ok data` for the parsed response body). -/
def translateTry (backend : Except String JsVal) : Except String TransResult :=
  match backend with
  | .error e => .error e
  | .ok data =>
    match data with
    | .arr l =>
      let tt := firstTranslationText l
      if jsTruthy tt then
        match tt with
        | .str s => .ok ⟨jsTrim s, true⟩
        | _ => .error "TypeError: trim is not a function"
      else .error "Unexpected translation response shape"
    | _ => .error "Unexpected translation response shape"

/-- `translateToEnglish(text, langTag)` with the environment credential and
the backend outcome passed explicitly.  The outer `Except` records whether
the call as a whole throws; every branch is `.ok` because the source's
`catch` degrades every failure to the original text. -/
def translateToEnglish (text : String) (langTag : Option String) (apiKey : Option String)
    (backend : Except String JsVal) : Except String TransResult :=
  if getLangCode langTag = "en" || !(optStrTruthy langTag) then .ok ⟨text, false⟩
  else
    match TRANSLATION_MODELS.find? (fun kv => kv.1 == getLangCode langTag) with
    | none => .ok ⟨text, false⟩
    | some _ =>
      if !(optStrTruthy apiKey) then .ok ⟨text, false⟩
      else
        match translateTry backend with
        | .ok r => .ok r
        | .error _ => .ok ⟨text, false⟩

/-! ## intentParser.js — LLM extraction with strict validation -/

/-- The opening brace character. -/
def openBraceCh : Char := Char.ofNat 123

/-- The closing brace character. -/
def closeBraceCh : Char := Char.ofNat 125

/-- `/\{[\s\S]*\}/` — the JSON-span regex of `extractIntentViaLLM`. -/
def jsonSpanRE : RE :=
  .cat (.lit [openBraceCh]) (.cat (.star (fun _ => true)) (.lit [closeBraceCh]))

/-- Depth-counting scan used by `firstBalancedSpan` (accumulator reversed). -/
def balTake : List Char → Nat → List Char → Option (List Char)
  | [], _, _ => none
  | c :: rest, depth, acc =>
    if c = openBraceCh then balTake rest (depth + 1) (c :: acc)
    else if c = closeBraceCh then
      (if depth ≤ 1 then some (c :: acc).reverse else balTake rest (depth - 1) (c :: acc))
    else balTake rest depth (c :: acc)

/-- Modelled from the spec: the "first balanced structured-payload span" of
the raw text — scan to the first `{`, then take characters until the brace
depth returns to zero.  (The code itself has no such function; this is the
spec-side reference for comparison with `jsonSpanRE` matching.) -/
def firstBalancedSpan (raw : String) : Option String :=
  match raw.toList.dropWhile (· ≠ openBraceCh) with
  | [] => none
  | l => (balTake l 0 []).map String.mk

def validIntents : List String := ["ADD_ITEM", "REMOVE_ITEM", "SEARCH_ITEM", "UNKNOWN"]

/-- `validIntents.includes(parsed.intent)` (`includes` uses `===`, so only a
string can match). -/
def isValidIntentVal : JsVal → Bool
  | .str s => validIntents.contains s
  | _ => false

/-- `parsed.item` is a usable item for a non-UNKNOWN intent:
`parsed.item && typeof parsed.item === "string" && parsed.item.trim() !== ""`. -/
def validItemVal (v : JsVal) : Bool :=
  jsTruthy v && v.isStr && (match v with | .str s => jsTrim s ≠ "" | _ => false)

/-- `parsed.item ? parsed.item.toLowerCase().trim() : null` — throws a
`TypeError` when the item is truthy but not a string. -/
def jsItemField (v : JsVal) : Except String (Option String) :=
  if jsTruthy v then
    match v with
    | .str s => .ok (some (jsTrim (jsToLower s)))
    | _ => .error "TypeError: parsed.item.toLowerCase is not a function"
  else .ok none

/-- The record `extractIntentViaLLM` resolves with (before `parseIntent`
adds `source`). -/
structure ExtractedIntent where
  intent : String
  item : Option String
  quantity : JsVal
  language : JsVal


/-- Validation and result construction on the decoded payload (the part of
`extractIntentViaLLM` after `JSON.parse`). -/
def validateAndBuild (parsed : JsVal) : Except String ExtractedIntent :=
  match jsGet parsed "intent" with
  | .error e => .error e
  | .ok intentV =>
    if !(isValidIntentVal intentV) then .error "LLM returned invalid intent"
    else
      match intentV with
      | .str tag =>
        match jsGet parsed "item" with
        | .error e => .error e
        | .ok itemV =>
          if tag ≠ "UNKNOWN" && !(validItemVal itemV) then
            .error ("LLM returned missing or invalid item field for intent " ++ tag)
          else
            match jsItemField itemV with
            | .error e => .error e
            | .ok item =>
              match jsGet parsed "quantity", jsGet parsed "language" with
              | .ok quantityV, .ok languageV =>
                .ok ⟨tag, item,
                     (match quantityV with | .num x => .num x | _ => .null),
                     (if jsTruthy languageV then languageV else .str "en")⟩
              | .error e, _ => .error e
              | _, .error e => .error e
      | _ => .error "LLM returned invalid intent"

/-- `extractIntentViaLLM(userText)`; `queryResult` is the outcome of the
Hugging Face call and `jsonParse` models `JSON.parse` (a platform builtin:
`.error` when the span is not valid JSON). -/
def extractIntentViaLLM (queryResult : Except String String)
    (jsonParse : String → Except String JsVal) : Except String ExtractedIntent :=
  match queryResult with
  | .error e => .error e
  | .ok raw =>
    match jsMatch jsonSpanRE raw.toList with
    | none => .error ("LLM returned no JSON. Raw output: " ++ raw)
    | some (span, _) =>
      match jsonParse (String.mk span) with
      | .error e => .error e
      | .ok parsed => validateAndBuild parsed

/-- The final intent record with provenance. -/
structure ParsedIntent where
  intent : String
  item : Option String
  quantity : JsVal
  language : JsVal
  source : String


/-- `parseIntent(text)`: propagate any failure, add `source: "llm"`. -/
def parseIntent (queryResult : Except String String)
    (jsonParse : String → Except String JsVal) : Except String ParsedIntent :=
  match extractIntentViaLLM queryResult jsonParse with
  | .error e => .error e
  | .ok r => .ok ⟨r.intent, r.item, r.quantity, r.language, "llm"⟩

/-- `const qty = intent.quantity || 1` in the route's ADD_ITEM case. -/
def appliedAddQty (q : JsVal) : ℚ :=
  if jsTruthy q then (match q with | .num x => x | _ => 1) else 1

/-! ## Failure conditions of the intent extractor, for the error contract -/

/-- The intent tag carried by a decoded payload, when its `intent` property
exists and is a string. -/
def tagOf (parsed : JsVal) : Option String :=
  match parsed with
  | .obj kvs =>
    match ((kvs.find? (fun kv => kv.1 == "intent")).map (·.2)).getD .undef with
    | .str s => some s
    | _ => none
  | _ => none

/-- The payload's `item` property (or `undefined`). -/
def itemValOf (parsed : JsVal) : JsVal :=
  match parsed with
  | .obj kvs => ((kvs.find? (fun kv => kv.1 == "item")).map (·.2)).getD .undef
  | _ => (.undef)

/-- The payload's intent tag is one of the four recognised kinds. -/
def goodTag (parsed : JsVal) : Prop :=
  ∃ t, tagOf parsed = some t ∧ validIntents.contains t = true

/-- A payload the validation logic rejects: bad intent tag, or a
non-UNKNOWN intent with a missing/non-string/empty-after-trim item. -/
def payloadRejected (parsed : JsVal) : Prop :=
  ¬ goodTag parsed
  ∨ (∃ t, tagOf parsed = some t ∧ t ≠ "UNKNOWN" ∧ validItemVal (itemValOf parsed) = false)

/-- The payload that crashes result construction: an `UNKNOWN` intent whose
item is truthy but not a string (`item.toLowerCase` raises a TypeError). -/
def payloadUnknownItemCrash (parsed : JsVal) : Prop :=
  tagOf parsed = some "UNKNOWN" ∧ jsTruthy (itemValOf parsed) = true
  ∧ (itemValOf parsed).isStr = false

/-- The failure conditions the spec enumerates for `parseIntent`: backend
error, no JSON span in the reply, the extracted span fails to decode, or
the decoded payload is rejected by validation. -/
def parseIntentFailureSpec (qr : Except String String)
    (jp : String → Except String JsVal) : Prop :=
  (∃ e, qr = .error e)
  ∨ ∃ raw, qr = .ok raw ∧
    (jsMatch jsonSpanRE raw.toList = none
     ∨ ∃ span cap, jsMatch jsonSpanRE raw.toList = some (span, cap) ∧
        ((∃ e, jp (String.mk span) = .error e)
         ∨ ∃ parsed, jp (String.mk span) = .ok parsed ∧ payloadRejected parsed))

/-- The spec's conditions plus the extra failure case the code actually
has: an `UNKNOWN` payload with a truthy non-string item. -/
def parseIntentFailureAmended (qr : Except String String)
    (jp : String → Except String JsVal) : Prop :=
  parseIntentFailureSpec qr jp
  ∨ ∃ raw span cap parsed, qr = .ok raw
      ∧ jsMatch jsonSpanRE raw.toList = some (span, cap)
      ∧ jp (String.mk span) = .ok parsed
      ∧ payloadUnknownItemCrash parsed

/-- A validated intent record: a recognised tag, a non-empty item for any
non-UNKNOWN intent, and `source = "llm"`. -/
def ValidParsedIntent (rec : ParsedIntent) : Prop :=
  validIntents.contains rec.intent = true
  ∧ (rec.intent ≠ "UNKNOWN" → ∃ s, rec.item = some s ∧ s ≠ "")
  ∧ rec.source = "llm"

/-! ## Lemmas about the stable insertion sort -/

theorem mem_insertP {p a : Product} {l : List Product} :
    p ∈ insertP a l ↔ p = a ∨ p ∈ l := by
  induction l with
  | nil => simp [insertP]
  | cons b t ih =>
    by_cases h : a.price ≤ b.price
    · simp [insertP, h]
    · simp [insertP, h, ih]
      tauto

theorem mem_isortByPrice {p : Product} {l : List Product} :
    p ∈ isortByPrice l ↔ p ∈ l := by
  induction l with
  | nil => exact Iff.rfl
  | cons a t ih => simp [isortByPrice, mem_insertP, ih]

theorem pairwise_insertP {a : Product} {l : List Product}
    (h : l.Pairwise (fun x y => x.price ≤ y.price)) :
    (insertP a l).Pairwise (fun x y => x.price ≤ y.price) := by
  induction l with
  | nil => simp [insertP]
  | cons b t ih =>
    rcases List.pairwise_cons.mp h with ⟨hb, ht⟩
    by_cases hab : a.price ≤ b.price
    · rw [insertP, if_pos hab]
      refine List.pairwise_cons.mpr ⟨?_, h⟩
      intro x hx
      rcases List.mem_cons.mp hx with rfl | hx
      · exact hab
      · exact le_trans hab (hb x hx)
    · rw [insertP, if_neg hab]
      refine List.pairwise_cons.mpr ⟨?_, ih ht⟩
      intro x hx
      rcases mem_insertP.mp hx with rfl | hx
      · exact le_of_not_le hab
      · exact hb x hx

theorem pairwise_isortByPrice (l : List Product) :
    (isortByPrice l).Pairwise (fun x y => x.price ≤ y.price) := by
  induction l with
  | nil => simp [isortByPrice]
  | cons a t ih => exact pairwise_insertP ih

theorem filter_price_insertP (a : Product) (l : List Product) (c : ℚ) :
    (insertP a l).filter (fun p => decide (p.price = c)) =
      if a.price = c then a :: l.filter (fun p => decide (p.price = c))
      else l.filter (fun p => decide (p.price = c)) := by
  induction l with
  | nil => by_cases hac : a.price = c <;> simp [insertP, hac]
  | cons b t ih =>
    by_cases hab : a.price ≤ b.price
    · rw [insertP, if_pos hab]
      by_cases hac : a.price = c <;> simp [hac, List.filter_cons]
    · rw [insertP, if_neg hab]
      have hbc : b.price < a.price := lt_of_not_le hab
      by_cases hac : a.price = c
      · have hbne : ¬ b.price = c := by
          rw [← hac]; exact ne_of_lt hbc
        simp [List.filter_cons, hbne, ih, hac]
      · simp [List.filter_cons, ih, hac]

theorem filter_price_isortByPrice (l : List Product) (c : ℚ) :
    (isortByPrice l).filter (fun p => decide (p.price = c)) =
      l.filter (fun p => decide (p.price = c)) := by
  induction l with
  | nil => rfl
  | cons a t ih =>
    rw [isortByPrice, filter_price_insertP, ih]
    by_cases hac : a.price = c <;> simp [List.filter_cons, hac]

/-! ## Lowercasing preserves whitespace-ness (for trim/lower commutation) -/

theorem isWsChar_jsLowerChar (c : Char) : isWsChar (jsLowerChar c) = isWsChar c := by
  unfold jsLowerChar
  split
  · rename_i h
    simp only [Bool.and_eq_true, decide_eq_true_eq] at h
    obtain ⟨h1, h2⟩ := h
    have hn1 : 65 ≤ c.toNat := by rw [Char.le_def] at h1; exact h1
    have hn2 : c.toNat ≤ 90 := by rw [Char.le_def] at h2; exact h2
    have hofnat : (Char.ofNat (c.toNat + 32)).toNat = c.toNat + 32 := by
      unfold Char.ofNat
      rw [dif_pos (by constructor; omega)]
      rfl
    have l1 : isWsChar (Char.ofNat (c.toNat + 32)) = false := by
      simp [isWsChar, hofnat]
      omega
    have l2 : isWsChar c = false := by
      simp [isWsChar]
      omega
    rw [l1, l2]
  · rfl

theorem trimChars_lowerL (l : List Char) : trimChars (lowerL l) = lowerL (trimChars l) := by
  have hcomp : (isWsChar ∘ jsLowerChar) = isWsChar := funext isWsChar_jsLowerChar
  unfold trimChars lowerL
  rw [List.dropWhile_map, hcomp, ← List.map_reverse, List.dropWhile_map, hcomp, ← List.map_reverse]

theorem jsTrim_jsToLower_ne_empty {s : String} (h : jsTrim s ≠ "") :
    jsTrim (jsToLower s) ≠ "" := by
  intro hcontra
  apply h
  unfold jsTrim jsToLower at *
  have hlist : (String.mk (lowerL s.toList)).toList = lowerL s.toList := rfl
  rw [hlist, trimChars_lowerL] at hcontra
  have : lowerL (trimChars s.toList) = [] := by
    have := congrArg String.toList hcontra
    simpa using this
  have : trimChars s.toList = [] := List.map_eq_nil_iff.mp this
  rw [this]

/-! ## List helper lemmas for the store -/

theorem find?_append_none {α : Type} (p : α → Bool) {l1 : List α} (l2 : List α)
    (h : l1.find? p = none) : (l1 ++ l2).find? p = l2.find? p := by
  induction l1 with
  | nil => rfl
  | cons a t ih =>
    cases hpa : p a with
    | true => simp [List.find?, hpa] at h
    | false =>
      simp only [List.find?, hpa] at h
      simpa [List.find?, hpa] using ih h

theorem filter_eq_nil_of_find?_none {α : Type} (p : α → Bool) {l : List α}
    (h : l.find? p = none) : l.filter p = [] := by
  induction l with
  | nil => rfl
  | cons a t ih =>
    cases hpa : p a with
    | true => simp [List.find?, hpa] at h
    | false =>
      simp only [List.find?, hpa] at h
      simpa [List.filter, hpa] using ih h

theorem updateFirstQty_append_none {l1 l2 : List StoreItem} {nm : String} {q : ℚ}
    (h : l1.find? (fun it => it.name == nm) = none) :
    updateFirstQty (l1 ++ l2) nm q = l1 ++ updateFirstQty l2 nm q := by
  induction l1 with
  | nil => rfl
  | cons a t ih =>
    cases hpa : (a.name == nm) with
    | true => simp [List.find?, hpa] at h
    | false =>
      simp only [List.find?, hpa] at h
      simp [updateFirstQty, hpa, ih h]

/-! ## Validation analysis for the intent extractor -/

theorem tagOf_obj {kvs : List (String × JsVal)} {t : String} :
    tagOf (.obj kvs) = some t ↔
      ((kvs.find? (fun kv => kv.1 == "intent")).map (·.2)).getD .undef = .str t := by
  cases h : ((kvs.find? (fun kv => kv.1 == "intent")).map (·.2)).getD .undef <;>
    simp [tagOf, h]

theorem validItemVal_cases {v : JsVal} (h : validItemVal v = true) :
    ∃ s, v = .str s ∧ jsTrim s ≠ "" := by
  cases v <;> simp [validItemVal, jsTruthy, JsVal.isStr] at h
  exact ⟨_, rfl, h.2⟩

theorem jsItemField_error_iff {v : JsVal} :
    (∃ e, jsItemField v = .error e) ↔ (jsTruthy v = true ∧ v.isStr = false) := by
  cases v with
  | null => simp [jsItemField, jsTruthy]
  | undef => simp [jsItemField, jsTruthy]
  | bool b => cases b <;> simp [jsItemField, jsTruthy, JsVal.isStr]
  | num x =>
    by_cases hx : x = 0 <;> simp [jsItemField, jsTruthy, JsVal.isStr, hx]
  | str s =>
    by_cases hs : s = "" <;> simp [jsItemField, jsTruthy, JsVal.isStr, hs]
  | arr l => simp [jsItemField, jsTruthy, JsVal.isStr]
  | obj kvs => simp [jsItemField, jsTruthy, JsVal.isStr]

theorem validateAndBuild_characterization (parsed : JsVal) :
    ((∃ e, validateAndBuild parsed = .error e) ↔
      (payloadRejected parsed ∨ payloadUnknownItemCrash parsed))
    ∧ (∀ r, validateAndBuild parsed = .ok r →
        validIntents.contains r.intent = true
        ∧ (r.intent ≠ "UNKNOWN" → ∃ s, r.item = some s ∧ s ≠ "")) := by
  have hng : ∀ p : JsVal, tagOf p = none → ¬ goodTag p := by
    intro p hp ⟨t, ht, _⟩
    rw [hp] at ht
    exact Option.noConfusion ht
  cases parsed with
  | null =>
    refine ⟨iff_of_true ⟨_, rfl⟩ (Or.inl (Or.inl (hng _ rfl))), fun r h => Except.noConfusion h⟩
  | undef =>
    refine ⟨iff_of_true ⟨_, rfl⟩ (Or.inl (Or.inl (hng _ rfl))), fun r h => Except.noConfusion h⟩
  | bool b =>
    refine ⟨iff_of_true ⟨_, rfl⟩ (Or.inl (Or.inl (hng _ rfl))), fun r h => Except.noConfusion h⟩
  | num x =>
    refine ⟨iff_of_true ⟨_, rfl⟩ (Or.inl (Or.inl (hng _ rfl))), fun r h => Except.noConfusion h⟩
  | str s =>
    refine ⟨iff_of_true ⟨_, rfl⟩ (Or.inl (Or.inl (hng _ rfl))), fun r h => Except.noConfusion h⟩
  | arr l =>
    refine ⟨iff_of_true ⟨_, rfl⟩ (Or.inl (Or.inl (hng _ rfl))), fun r h => Except.noConfusion h⟩
  | obj kvs =>
    cases htv : ((kvs.find? (fun kv => kv.1 == "intent")).map (·.2)).getD .undef with
    | str tag =>
      by_cases hct : validIntents.contains tag = true
      · -- recognised tag: behaviour turns on the item checks
        have htag : tagOf (JsVal.obj kvs) = some tag := tagOf_obj.mpr htv
        have hmem : tag ∈ validIntents := by simpa using hct
        cases hck : (decide (tag ≠ "UNKNOWN") && !(validItemVal (itemValOf (.obj kvs)))) with
        | true =>
          have hck' : ¬ tag = "UNKNOWN" ∧ validItemVal (itemValOf (.obj kvs)) = false := by
            simpa using hck
          have herr : validateAndBuild (.obj kvs) =
              .error ("LLM returned missing or invalid item field for intent " ++ tag) := by
            have hck2 := hck'
            simp only [itemValOf] at hck2
            simp [validateAndBuild, jsGet, htv, isValidIntentVal, hmem, hck2.1, hck2.2]
          refine ⟨iff_of_true ⟨_, herr⟩ ?_, fun r h => by rw [herr] at h; exact Except.noConfusion h⟩
          exact Or.inl (Or.inr ⟨tag, htag, hck'.1, hck'.2⟩)
        | false =>
          have hck' : ¬ tag = "UNKNOWN" → validItemVal (itemValOf (.obj kvs)) = true := by
            intro h1
            cases hvv : validItemVal (itemValOf (.obj kvs)) with
            | true => rfl
            | false => rw [hvv] at hck; simp [h1] at hck
          have hnotc : ¬(¬ tag = "UNKNOWN" ∧ validItemVal (itemValOf (.obj kvs)) = false) := by
            rintro ⟨h1, h2⟩
            rw [hck' h1] at h2
            exact Bool.noConfusion h2
          cases hjif : jsItemField (itemValOf (.obj kvs)) with
          | error e =>
            have hcrash : payloadUnknownItemCrash (.obj kvs) := by
              have hprops := jsItemField_error_iff.mp ⟨e, hjif⟩
              have htagU : tag = "UNKNOWN" := by
                by_contra hne
                obtain ⟨s, hvs, _⟩ := validItemVal_cases (hck' hne)
                rw [hvs] at hprops
                exact Bool.noConfusion hprops.2
              exact ⟨htagU ▸ htag, hprops.1, hprops.2⟩
            have herr : validateAndBuild (.obj kvs) = .error e := by
              have hjif' := hjif
              simp only [itemValOf] at hjif' hnotc
              simp [validateAndBuild, jsGet, htv, isValidIntentVal, hmem, hnotc, hjif']
            refine ⟨iff_of_true ⟨_, herr⟩ (Or.inr hcrash),
                    fun r h => by rw [herr] at h; exact Except.noConfusion h⟩
          | ok item =>
            have hok : validateAndBuild (.obj kvs) =
                .ok ⟨tag, item,
                     (match ((kvs.find? (fun kv => kv.1 == "quantity")).map (·.2)).getD .undef with
                      | .num x => .num x | _ => .null),
                     (if jsTruthy (((kvs.find? (fun kv => kv.1 == "language")).map (·.2)).getD .undef)
                      then (((kvs.find? (fun kv => kv.1 == "language")).map (·.2)).getD .undef)
                      else .str "en")⟩ := by
              have hjif' := hjif
              simp only [itemValOf] at hjif' hnotc
              simp [validateAndBuild, jsGet, htv, isValidIntentVal, hmem, hnotc, hjif']
            constructor
            · constructor
              · rintro ⟨e, he⟩
                rw [hok] at he
                exact Except.noConfusion he
              · rintro (hrej | hcrash)
                · rcases hrej with hbad | ⟨t, ht, hne, hval⟩
                  · exact absurd ⟨tag, htag, hct⟩ hbad
                  · rw [htag] at ht
                    injection ht with ht
                    subst ht
                    rw [hck' hne] at hval
                    exact Bool.noConfusion hval
                · rcases hcrash with ⟨htU, htruthy, hstr⟩
                  rw [htag] at htU
                  injection htU with htU
                  rcases jsItemField_error_iff.mpr ⟨htruthy, hstr⟩ with ⟨e, he⟩
                  rw [he] at hjif
                  exact Except.noConfusion hjif
            · intro r hr
              rw [hok] at hr
              injection hr with hr
              subst hr
              refine ⟨hct, ?_⟩
              intro hne
              obtain ⟨s, hvs, hst⟩ := validItemVal_cases (hck' hne)
              rw [hvs] at hjif
              have hif : jsItemField (.str s) = .ok (some (jsTrim (jsToLower s))) := by
                have hsne : s ≠ "" := by
                  intro h0
                  apply hst
                  rw [h0]
                  rfl
                simp [jsItemField, jsTruthy, hsne]
              rw [hif] at hjif
              injection hjif with hjif
              exact ⟨jsTrim (jsToLower s), by rw [← hjif], jsTrim_jsToLower_ne_empty hst⟩
      · -- unrecognised string tag
        have hmem : tag ∉ validIntents := by simpa using hct
        have herr : validateAndBuild (.obj kvs) = .error "LLM returned invalid intent" := by
          simp [validateAndBuild, jsGet, htv, isValidIntentVal, hmem]
        refine ⟨iff_of_true ⟨_, herr⟩ ?_, fun r h => by rw [herr] at h; exact Except.noConfusion h⟩
        refine Or.inl (Or.inl ?_)
        rintro ⟨t, ht, hc⟩
        rw [tagOf_obj] at ht
        rw [htv] at ht
        injection ht with ht
        subst ht
        exact hct hc
    | null =>
      exact ⟨iff_of_true ⟨"LLM returned invalid intent",
            by simp [validateAndBuild, jsGet, htv, isValidIntentVal]⟩
          (Or.inl (Or.inl (hng _ (by simp [tagOf, htv])))),
        fun r h => by
          simp [validateAndBuild, jsGet, htv, isValidIntentVal] at h⟩
    | undef =>
      exact ⟨iff_of_true ⟨"LLM returned invalid intent",
            by simp [validateAndBuild, jsGet, htv, isValidIntentVal]⟩
          (Or.inl (Or.inl (hng _ (by simp [tagOf, htv])))),
        fun r h => by
          simp [validateAndBuild, jsGet, htv, isValidIntentVal] at h⟩
    | bool b =>
      exact ⟨iff_of_true ⟨"LLM returned invalid intent",
            by simp [validateAndBuild, jsGet, htv, isValidIntentVal]⟩
          (Or.inl (Or.inl (hng _ (by simp [tagOf, htv])))),
        fun r h => by
          simp [validateAndBuild, jsGet, htv, isValidIntentVal] at h⟩
    | num x =>
      exact ⟨iff_of_true ⟨"LLM returned invalid intent",
            by simp [validateAndBuild, jsGet, htv, isValidIntentVal]⟩
          (Or.inl (Or.inl (hng _ (by simp [tagOf, htv])))),
        fun r h => by
          simp [validateAndBuild, jsGet, htv, isValidIntentVal] at h⟩
    | arr l =>
      exact ⟨iff_of_true ⟨"LLM returned invalid intent",
            by simp [validateAndBuild, jsGet, htv, isValidIntentVal]⟩
          (Or.inl (Or.inl (hng _ (by simp [tagOf, htv])))),
        fun r h => by
          simp [validateAndBuild, jsGet, htv, isValidIntentVal] at h⟩
    | obj kvs2 =>
      exact ⟨iff_of_true ⟨"LLM returned invalid intent",
            by simp [validateAndBuild, jsGet, htv, isValidIntentVal]⟩
          (Or.inl (Or.inl (hng _ (by simp [tagOf, htv])))),
        fun r h => by
          simp [validateAndBuild, jsGet, htv, isValidIntentVal] at h⟩

theorem validateAndBuild_quantity {parsed : JsVal} {r : ExtractedIntent}
    (h : validateAndBuild parsed = .ok r) :
    r.quantity = .null ∨ ∃ x : ℚ, r.quantity = .num x := by
  unfold validateAndBuild at h
  repeat' split at h
  all_goals first
    | exact Except.noConfusion h
    | (injection h with h; subst h; simp)

/-! ## Greedy-match characterization of the JSON-span regex -/

theorem takeWhile_const_true (l : List Char) : (l.takeWhile (fun _ => true)) = l := by
  induction l <;> simp [List.takeWhile, *]

/-- The greedy `star` loop returns the continuation's value at the longest
successful candidate: if every candidate longer than `target` fails and
`target` succeeds, the loop returns `target`'s value. -/
theorem starLoop_eq_of_first {α : Type} (k : List Char → Option (List Char) → Option α)
    (cap : Option (List Char)) (s : List Char) (target : Nat) (r : α)
    (hk : k (s.drop target) cap = some r) :
    ∀ n, target ≤ n → (∀ j, target < j → j ≤ n → k (s.drop j) cap = none) →
      starLoop k cap s n = some r := by
  intro n
  induction n with
  | zero =>
    intro h0 _
    have ht : target = 0 := Nat.le_zero.mp h0
    subst ht
    simpa [starLoop] using hk
  | succ n ih =>
    intro hle hfail
    by_cases heq : target = n + 1
    · subst heq
      rw [starLoop, hk]
      rfl
    · have hle' : target ≤ n := Nat.lt_succ_iff.mp (Nat.lt_of_le_of_ne hle heq)
      rw [starLoop, hfail (n + 1) (Nat.lt_succ_of_le hle') (le_refl _)]
      simpa using ih hle' (fun j hj1 hj2 => hfail j hj1 (Nat.le_succ_of_le hj2))

theorem drop_append_len {α : Type} (l1 l2 : List α) (m : Nat) :
    (l1 ++ l2).drop (l1.length + m) = l2.drop m := by
  induction l1 with
  | nil => simp
  | cons c t ih => simp [Nat.succ_add, ih]

/-- At an opening brace whose tail contains a closing brace with a
close-brace-free suffix `v`, the regex `/\{[\s\S]*\}/` matches through the
LAST closing brace. -/
theorem matchHere_jsonSpan (u v : List Char) (hv : closeBraceCh ∉ v) :
    matchHere jsonSpanRE (openBraceCh :: (u ++ closeBraceCh :: v)) =
      some (openBraceCh :: (u ++ [closeBraceCh]), none) := by
  simp [matchHere, mrun, jsonSpanRE, stripPrefixCh, takeWhile_const_true]
  refine starLoop_eq_of_first _ _ _ u.length _ ?_ (u.length + (v.length + 1)) (by omega) ?_
  · have hdrop : (u ++ closeBraceCh :: v).drop u.length = closeBraceCh :: v := by
      have h00 := drop_append_len u (closeBraceCh :: v) 0
      simp only [Nat.add_zero, List.drop_zero] at h00
      exact h00
    rw [hdrop]
    have hstrip : stripPrefixCh [closeBraceCh] (closeBraceCh :: v) = some v := by
      simp [stripPrefixCh]
    simp only [hstrip]
    have harith : u.length + (v.length + 1) + 1 - v.length = u.length + 2 := by omega
    rw [harith]
    have htake : (openBraceCh :: (u ++ closeBraceCh :: v)).take (u.length + 2) =
        openBraceCh :: (u ++ [closeBraceCh]) := by
      have hsplit : u ++ closeBraceCh :: v = (u ++ [closeBraceCh]) ++ v := by simp
      rw [List.take_succ_cons, hsplit]
      have hlen : u.length + 1 = (u ++ [closeBraceCh]).length := by simp
      rw [hlen, List.take_left]
    rw [htake]
  · intro j hj1 hj2
    obtain ⟨m, rfl⟩ : ∃ m, j = u.length + (m + 1) := ⟨j - u.length - 1, by omega⟩
    rw [drop_append_len u (closeBraceCh :: v) (m + 1)]
    show (match stripPrefixCh [closeBraceCh] (v.drop m) with
          | some rest => some ((openBraceCh :: (u ++ closeBraceCh :: v)).take
              (u.length + (v.length + 1) + 1 - rest.length), (none : Option (List Char)))
          | none => none) = none
    cases hD : v.drop m with
    | nil => rfl
    | cons c w =>
      have hc : c ∈ v := List.drop_subset m v (by rw [hD]; exact List.mem_cons_self c w)
      have hne : ¬ closeBraceCh = c := by
        intro h
        exact hv (h ▸ hc)
      simp [stripPrefixCh, hne]

theorem matchHere_jsonSpan_ne {c : Char} (t : List Char) (h : ¬ c = openBraceCh) :
    matchHere jsonSpanRE (c :: t) = none := by
  have hne : ¬ openBraceCh = c := fun hh => h hh.symm
  simp [matchHere, mrun, jsonSpanRE, stripPrefixCh, hne]

/-- Leftmost-greedy characterization: on `a ++ "{" ++ u ++ "}" ++ v` with no
`{` in the prefix `a` and no `}` in the suffix `v`, the match runs from the
first opening brace through the last closing brace. -/
theorem jsMatch_jsonSpan_greedy (a u v : List Char) (ha : openBraceCh ∉ a)
    (hv : closeBraceCh ∉ v) :
    jsMatch jsonSpanRE (a ++ openBraceCh :: (u ++ closeBraceCh :: v)) =
      some (openBraceCh :: (u ++ [closeBraceCh]), none) := by
  induction a with
  | nil =>
    rw [List.nil_append, jsMatch, matchHere_jsonSpan u v hv]
    rfl
  | cons c a' ih =>
    have hc : ¬ c = openBraceCh := fun h => ha (h ▸ List.mem_cons_self c a')
    rw [List.cons_append, jsMatch, matchHere_jsonSpan_ne _ hc]
    simpa using ih (fun h => ha (List.mem_cons_of_mem c h))

/-! ## Claim theorems -/

/-- C10: `extractPriceConstraint` is total at its public interface: for every
input value — including `null`, `undefined` and non-string values — it
returns either a single constraint or none (`.ok`), and never throws. -/
theorem extractPriceConstraint_total (v : JsVal) :
    ∃ r : Option PriceConstraint, extractPriceConstraint v = .ok r := by
  cases v with
  | str s =>
    by_cases h : s = ""
    · subst h; exact ⟨none, rfl⟩
    · refine ⟨priceCore (lowerL s.toList), ?_⟩
      simp [extractPriceConstraint, jsTruthy, JsVal.isStr, h]
  | null => exact ⟨none, rfl⟩
  | undef => exact ⟨none, rfl⟩
  | bool b => cases b <;> exact ⟨none, rfl⟩
  | num x =>
    by_cases h : x = 0
    · subst h; exact ⟨none, rfl⟩
    · refine ⟨none, ?_⟩
      simp [extractPriceConstraint, jsTruthy, JsVal.isStr, h]
  | arr l => exact ⟨none, rfl⟩
  | obj kvs => exact ⟨none, rfl⟩

/-- C1: whenever the (lowercased) text matches the less-than price pattern
with captured digits `g` denoting the value `v`, `extractPriceConstraint`
returns exactly `{LESS_THAN, v}`, and the filter set the route passes to the
catalog search has `maxPrice = v` — regardless of any `maxPrice` (or other
field) the structured intent extractor supplied. -/
theorem extractPriceConstraint_lessThan_override (text : String) (sp g : List Char) (v : ℚ)
    (ri : RouteIntent)
    (hm : jsMatch lessThanRE (lowerL text.toList) = some (sp, some g))
    (hg : g ≠ []) (hv : parseDecimal g = v) :
    extractPriceConstraint (.str text) = .ok (some ⟨.LESS_THAN, v⟩)
    ∧ (routeFilters ri text).maxPrice = some v := by
  have hne : text ≠ "" := by
    intro h
    subst h
    have : jsMatch lessThanRE (lowerL "".toList) = none := by decide
    rw [this] at hm
    exact Option.noConfusion hm
  have hext : extractPriceConstraint (.str text) = .ok (some ⟨.LESS_THAN, v⟩) := by
    have hcore : priceCore (lowerL text.toList) = some ⟨.LESS_THAN, v⟩ := by
      unfold priceCore matchGroup1
      rw [hm]
      simp [List.isEmpty_eq_false_iff_exists_mem.mpr ⟨g.head hg, List.head_mem hg⟩, hv]
    unfold extractPriceConstraint
    have hguard : (!(jsTruthy (JsVal.str text)) || !((JsVal.str text).isStr)) = false := by
      simp [jsTruthy, JsVal.isStr, hne]
    rw [hguard]
    show Except.ok (priceCore (lowerL text.toList)) = _
    rw [hcore]
  refine ⟨hext, ?_⟩
  unfold routeFilters
  rw [hext]
  rfl

/-- Witness for C1 at a concrete input: "Toothpaste under $4" produces the
`LESS_THAN 4` constraint, and the route's final `maxPrice` is `4` even
though the extractor supplied `maxPrice = 99`. -/
theorem extractPriceConstraint_lessThan_override_witness :
    extractPriceConstraint (.str "Toothpaste under $4") = .ok (some ⟨.LESS_THAN, 4⟩)
    ∧ (routeFilters ⟨none, some 99, none, none, none⟩ "Toothpaste under $4").maxPrice = some 4 :=
  extractPriceConstraint_lessThan_override "Toothpaste under $4" ("under $4".toList) ['4'] 4
    ⟨none, some 99, none, none, none⟩ (by decide) (by decide) (by decide)

/-- C9: with the substitutes table in its fixed state, `handleAdviceQuestion`
on "substitute for milk" returns a `SUBSTITUTE` advice result whose
suggestions are exactly ["almond milk", "oat milk", "soy milk"], whatever
the history, shuffles and month are. -/
theorem handleAdviceQuestion_substitute_milk (runningLow : List String)
    (shuffleHist shuffleHealthy : List String → List String) (month : Nat) :
    handleAdviceQuestion "substitute for milk" runningLow shuffleHist shuffleHealthy month =
      some ⟨"SUBSTITUTE", "substitute", ["almond milk", "oat milk", "soy milk"],
            "Instead of milk, you could try these alternatives!"⟩ := by
  rfl

/-- C3: every product `searchCatalog` returns satisfies the whole active
filter predicate (in particular `price ≤ maxPrice` / `price ≥ minPrice`
whenever those bounds are set, on top of bidirectional substring name
matching), the result is sorted non-decreasingly by price, and products of
any given price keep their filtered-catalog (declaration) order — the sort
is stable. -/
theorem searchCatalog_correct (query : String) (f : Filters) :
    (∀ p, p ∈ searchCatalog query f →
        searchFilterPred (trimChars (lowerL query.toList)) f p = true
        ∧ (∀ m, f.maxPrice = some m → p.price ≤ m)
        ∧ (∀ m, f.minPrice = some m → m ≤ p.price))
    ∧ (searchCatalog query f).Pairwise (fun a b => a.price ≤ b.price)
    ∧ (∀ c : ℚ,
        (searchCatalog query f).filter (fun p => decide (p.price = c)) =
          (CATALOG.filter (searchFilterPred (trimChars (lowerL query.toList)) f)).filter
            (fun p => decide (p.price = c))) := by
  refine ⟨?_, pairwise_isortByPrice _, fun c => filter_price_isortByPrice _ c⟩
  intro p hp
  have hpred : searchFilterPred (trimChars (lowerL query.toList)) f p = true := by
    have := mem_isortByPrice.mp hp
    exact (List.mem_filter.mp this).2
  refine ⟨hpred, ?_, ?_⟩
  · intro m hm
    have h := hpred
    simp only [searchFilterPred, Bool.and_eq_true] at h
    have hmax := h.1.1.1.2
    rw [hm] at hmax
    exact of_decide_eq_true hmax
  · intro m hm
    have h := hpred
    simp only [searchFilterPred, Bool.and_eq_true] at h
    have hmin := h.1.1.2
    rw [hm] at hmin
    exact of_decide_eq_true hmin

/-- Witness for C3 at a concrete query: "bananas" with no active filters. -/
theorem searchCatalog_correct_witness :
    searchFilterPred (trimChars (lowerL "bananas".toList)) ⟨none, none, none, none, none⟩
        ⟨3, "bananas", "TropicBest", "6 pack", 1.99, "Fruits", ["fresh"]⟩ = true
    ∧ (searchCatalog "bananas" ⟨none, none, none, none, none⟩).Pairwise
        (fun a b => a.price ≤ b.price) := by
  have h := searchCatalog_correct "bananas" ⟨none, none, none, none, none⟩
  have hmem : (⟨3, "bananas", "TropicBest", "6 pack", 1.99, "Fruits", ["fresh"]⟩ : Product)
      ∈ searchCatalog "bananas" ⟨none, none, none, none, none⟩ := by
    have hres : searchCatalog "bananas" ⟨none, none, none, none, none⟩ =
        [⟨3, "bananas", "TropicBest", "6 pack", 1.99, "Fruits", ["fresh"]⟩] := by rfl
    rw [hres]
    exact List.mem_singleton.mpr rfl
  exact ⟨(h.1 _ hmem).1, h.2.1⟩

theorem searchFilterPred_of_extendsOne {qq : List Char} {F G : Filters} (hext : ExtendsOne F G)
    {p : Product} (h : searchFilterPred qq G p = true) : searchFilterPred qq F p = true := by
  rcases hext with ⟨hf, b, rfl⟩ | ⟨hf, m, rfl⟩ | ⟨hf, m, rfl⟩ | ⟨hf, s, rfl⟩ | ⟨hf, q, rfl⟩ <;>
    · simp only [searchFilterPred, Bool.and_eq_true] at h ⊢
      rw [hf]
      tauto

/-- C6 theorem: adding one filter never adds results. -/
theorem searchCatalog_monotone (query : String) (F G : Filters) (hext : ExtendsOne F G)
    (p : Product) (hp : p ∈ searchCatalog query G) : p ∈ searchCatalog query F := by
  have hmem := List.mem_filter.mp (mem_isortByPrice.mp hp)
  exact mem_isortByPrice.mpr (List.mem_filter.mpr
    ⟨hmem.1, searchFilterPred_of_extendsOne hext hmem.2⟩)

/-- Witness for C6: adding a brand filter to an empty filter set keeps the
banana result a member of the unfiltered result. -/
theorem searchCatalog_monotone_witness :
    (⟨3, "bananas", "TropicBest", "6 pack", 1.99, "Fruits", ["fresh"]⟩ : Product)
      ∈ searchCatalog "bananas" ⟨none, none, none, none, none⟩ :=
  searchCatalog_monotone "bananas" ⟨none, none, none, none, none⟩
    ⟨some "TropicBest", none, none, none, none⟩
    (Or.inl ⟨rfl, "TropicBest", rfl⟩) _
    (by
      have hres : searchCatalog "bananas" ⟨some "TropicBest", none, none, none, none⟩ =
          [⟨3, "bananas", "TropicBest", "6 pack", 1.99, "Fruits", ["fresh"]⟩] := by rfl
      rw [hres]
      exact List.mem_singleton.mpr rfl)

/-- C7: adding the same item twice (same name up to lowercasing/trimming,
starting from a store that has no entry for that name) leaves exactly one
list entry for the name, with quantity `q1 + q2`; the second call creates
no second entry. -/
theorem addItem_increments (st : StoreState) (n1 n2 : String) (q1 q2 : ℚ)
    (c1 c2 : Option String) (t1 t2 : String)
    (hnm : normalizeName n2 = normalizeName n1)
    (h0 : st.shoppingList.find? (fun it => it.name == normalizeName n1) = none) :
    ((addItem n2 q2 c2 t2 (addItem n1 q1 c1 t1 st).2).2.shoppingList.filter
        (fun it => it.name == normalizeName n1)).map (fun it => it.quantity) = [q1 + q2]
    ∧ (addItem n2 q2 c2 t2 (addItem n1 q1 c1 t1 st).2).2.shoppingList.length
      = (addItem n1 q1 c1 t1 st).2.shoppingList.length := by
  have h1 : addItem n1 q1 c1 t1 st =
      (⟨st.nextId, normalizeName n1, q1, categoryOrDefault c1 (normalizeName n1), t1⟩,
       { shoppingList := st.shoppingList ++
           [⟨st.nextId, normalizeName n1, q1, categoryOrDefault c1 (normalizeName n1), t1⟩],
         nextId := st.nextId + 1,
         purchaseHistory := bumpHistory st.purchaseHistory (normalizeName n1) t1 }) := by
    simp only [addItem, h0]
  have hfind2 : (st.shoppingList ++
      ([⟨st.nextId, normalizeName n1, q1, categoryOrDefault c1 (normalizeName n1), t1⟩] :
        List StoreItem)).find?
      (fun it => it.name == normalizeName n1) =
      some ⟨st.nextId, normalizeName n1, q1, categoryOrDefault c1 (normalizeName n1), t1⟩ := by
    rw [find?_append_none _ _ h0]
    simp [List.find?]
  have hupd : updateFirstQty (st.shoppingList ++
      [⟨st.nextId, normalizeName n1, q1, categoryOrDefault c1 (normalizeName n1), t1⟩])
      (normalizeName n1) q2 =
      st.shoppingList ++
        [⟨st.nextId, normalizeName n1, q1 + q2, categoryOrDefault c1 (normalizeName n1), t1⟩] := by
    rw [updateFirstQty_append_none h0]
    simp [updateFirstQty]
  have h2 : addItem n2 q2 c2 t2 (addItem n1 q1 c1 t1 st).2 =
      (⟨st.nextId, normalizeName n1, q1 + q2, categoryOrDefault c1 (normalizeName n1), t1⟩,
       { shoppingList := st.shoppingList ++
           [⟨st.nextId, normalizeName n1, q1 + q2, categoryOrDefault c1 (normalizeName n1), t1⟩],
         nextId := st.nextId + 1,
         purchaseHistory := bumpHistory
           (bumpHistory st.purchaseHistory (normalizeName n1) t1) (normalizeName n1) t2 }) := by
    rw [addItem.eq_def]
    simp only [h1, hnm, hfind2, hupd]
  rw [h2]
  constructor
  · rw [List.filter_append, filter_eq_nil_of_find?_none _ h0]
    simp [List.filter]
  · rw [h1]
    simp

/-- Witness for C7: `addOrIncrement("apples", 2)` then `addOrIncrement("apples", 3)`
on an empty store yields a single "apples" entry with quantity `2 + 3`. -/
theorem addItem_increments_witness :
    ((addItem "apples" 3 none "t2" (addItem "apples" 2 none "t1" ⟨[], 1, []⟩).2).2.shoppingList.filter
        (fun it => it.name == normalizeName "apples")).map (fun it => it.quantity) = [2 + 3]
    ∧ (addItem "apples" 3 none "t2" (addItem "apples" 2 none "t1" ⟨[], 1, []⟩).2).2.shoppingList.length
      = (addItem "apples" 2 none "t1" ⟨[], 1, []⟩).2.shoppingList.length :=
  addItem_increments ⟨[], 1, []⟩ "apples" "apples" 2 3 none none "t1" "t2" rfl rfl

/-- C5: `translateToEnglish` never raises, and whenever the tag's primary
subtag is the pivot code "en", or no translation model is registered for
the subtag, or the backend credential is absent (falsy), or the backend
call fails, it returns the original text with `wasTranslated = false`. -/
theorem translateToEnglish_fallback (text : String) (langTag apiKey : Option String)
    (backend : Except String JsVal) :
    (∃ r, translateToEnglish text langTag apiKey backend = .ok r)
    ∧ ((getLangCode langTag = "en"
        ∨ TRANSLATION_MODELS.find? (fun kv => kv.1 == getLangCode langTag) = none
        ∨ optStrTruthy apiKey = false
        ∨ (∃ e, backend = .error e))
       → translateToEnglish text langTag apiKey backend = .ok ⟨text, false⟩) := by
  constructor
  · by_cases h1 : (getLangCode langTag = "en" || !(optStrTruthy langTag)) = true
    · exact ⟨⟨text, false⟩, by simp [translateToEnglish, h1]⟩
    · cases hfind : TRANSLATION_MODELS.find? (fun kv => kv.1 == getLangCode langTag) with
      | none => exact ⟨⟨text, false⟩, by simp [translateToEnglish, h1, hfind]⟩
      | some m =>
        by_cases h2 : optStrTruthy apiKey = true
        · cases htry : translateTry backend with
          | ok r => exact ⟨r, by simp [translateToEnglish, h1, hfind, h2, htry]⟩
          | error e => exact ⟨⟨text, false⟩, by simp [translateToEnglish, h1, hfind, h2, htry]⟩
        · exact ⟨⟨text, false⟩, by simp [translateToEnglish, h1, hfind, h2]⟩
  · intro hcond
    by_cases h1 : (getLangCode langTag = "en" || !(optStrTruthy langTag)) = true
    · simp [translateToEnglish, h1]
    · have hen : getLangCode langTag ≠ "en" := by
        intro h
        exact h1 (by simp [h])
      cases hfind : TRANSLATION_MODELS.find? (fun kv => kv.1 == getLangCode langTag) with
      | none => simp [translateToEnglish, h1, hfind]
      | some m =>
        by_cases h2 : optStrTruthy apiKey = true
        · rcases hcond with h | h | h | ⟨e, h⟩
          · exact absurd h hen
          · rw [h] at hfind; exact Option.noConfusion hfind
          · rw [h] at h2; exact Bool.noConfusion h2
          · subst h
            simp [translateToEnglish, h1, hfind, h2, translateTry]
        · simp [translateToEnglish, h1, hfind, h2]

/-- Witness for C5: language tag "hi-IN" with no registered credential
returns the original text untranslated. -/
theorem translateToEnglish_fallback_witness :
    translateToEnglish "दूध चाहिए" (some "hi-IN") none (.ok .null) = .ok ⟨"दूध चाहिए", false⟩ :=
  (translateToEnglish_fallback "दूध चाहिए" (some "hi-IN") none (.ok .null)).2
    (Or.inr (Or.inr (Or.inl rfl)))

/-- C2 (amended): `parseIntent` fails by raising exactly when the backend
call errors, the raw reply has no JSON span, the extracted span fails to
decode, the payload's intent tag is not one of the four recognised kinds, a
non-UNKNOWN intent carries a missing/non-string/empty item — or (the case
the spec misses) an UNKNOWN intent carries a truthy non-string item; in
every other case it returns a validated intent record. -/
theorem parseIntent_error_contract (qr : Except String String)
    (jp : String → Except String JsVal) :
    ((∃ e, parseIntent qr jp = .error e) ↔ parseIntentFailureAmended qr jp)
    ∧ (∀ rec, parseIntent qr jp = .ok rec → ValidParsedIntent rec) := by
  cases qr with
  | error e0 =>
    constructor
    · exact iff_of_true ⟨e0, rfl⟩ (Or.inl (Or.inl ⟨e0, rfl⟩))
    · intro rec h
      exact Except.noConfusion h
  | ok raw =>
    cases hjm : jsMatch jsonSpanRE raw.toList with
    | none =>
      have herr : parseIntent (.ok raw) jp =
          .error ("LLM returned no JSON. Raw output: " ++ raw) := by
        have hjm2 : jsMatch jsonSpanRE raw.data = none := hjm
        simp [parseIntent, extractIntentViaLLM, hjm2]
      constructor
      · exact iff_of_true ⟨_, herr⟩ (Or.inl (Or.inr ⟨raw, rfl, Or.inl hjm⟩))
      · intro rec h
        rw [herr] at h
        exact Except.noConfusion h
    | some pr =>
      obtain ⟨span, cap⟩ := pr
      cases hjp : jp (String.mk span) with
      | error e1 =>
        have herr : parseIntent (.ok raw) jp = .error e1 := by
          have hjm2 : jsMatch jsonSpanRE raw.data = some (span, cap) := hjm
          simp [parseIntent, extractIntentViaLLM, hjm2, hjp]
        constructor
        · exact iff_of_true ⟨_, herr⟩
            (Or.inl (Or.inr ⟨raw, rfl, Or.inr ⟨span, cap, hjm, Or.inl ⟨e1, hjp⟩⟩⟩))
        · intro rec h
          rw [herr] at h
          exact Except.noConfusion h
      | ok parsed =>
        have hpi : parseIntent (.ok raw) jp =
            (match validateAndBuild parsed with
             | .error e => .error e
             | .ok r => .ok ⟨r.intent, r.item, r.quantity, r.language, "llm"⟩) := by
          have hjm2 : jsMatch jsonSpanRE raw.data = some (span, cap) := hjm
          simp [parseIntent, extractIntentViaLLM, hjm2, hjp]
        obtain ⟨hvc, hvok⟩ := validateAndBuild_characterization parsed
        constructor
        · constructor
          · rintro ⟨e, he⟩
            rw [hpi] at he
            cases hvab : validateAndBuild parsed with
            | error e2 =>
              rcases hvc.mp ⟨e2, hvab⟩ with hrej | hcr
              · exact Or.inl (Or.inr ⟨raw, rfl, Or.inr ⟨span, cap, hjm,
                  Or.inr ⟨parsed, hjp, hrej⟩⟩⟩)
              · exact Or.inr ⟨raw, span, cap, parsed, rfl, hjm, hjp, hcr⟩
            | ok r =>
              rw [hvab] at he
              exact Except.noConfusion he
          · intro hfail
            have hvab : ∃ e, validateAndBuild parsed = .error e := by
              rcases hfail with (⟨e, habs⟩ | ⟨raw2, hraw2, hin⟩)
                | ⟨raw2, sp2, c2, p2, hraw2, hjm2, hjp2, hcr⟩
              · exact Except.noConfusion habs
              · injection hraw2 with hraw2
                subst hraw2
                rcases hin with hnone | ⟨sp2, c2, hsome, hrest⟩
                · rw [hjm] at hnone
                  exact Option.noConfusion hnone
                · rw [hjm] at hsome
                  injection hsome with hsome
                  injection hsome with h1 h2
                  subst h1
                  subst h2
                  rcases hrest with ⟨e, hjpe⟩ | ⟨p2, hjp2, hrej⟩
                  · rw [hjp] at hjpe
                    exact Except.noConfusion hjpe
                  · rw [hjp] at hjp2
                    injection hjp2 with hjp2
                    subst hjp2
                    exact hvc.mpr (Or.inl hrej)
              · injection hraw2 with hraw2
                subst hraw2
                rw [hjm] at hjm2
                injection hjm2 with hjm2
                injection hjm2 with h1 h2
                subst h1
                subst h2
                rw [hjp] at hjp2
                injection hjp2 with hjp2
                subst hjp2
                exact hvc.mpr (Or.inr hcr)
            obtain ⟨e, he⟩ := hvab
            rw [hpi, he]
            exact ⟨e, rfl⟩
        · intro rec hrec
          rw [hpi] at hrec
          cases hvab : validateAndBuild parsed with
          | error e2 =>
            rw [hvab] at hrec
            exact Except.noConfusion hrec
          | ok r =>
            rw [hvab] at hrec
            injection hrec with hrec
            subst hrec
            obtain ⟨hc, hi⟩ := hvok r hvab
            exact ⟨hc, hi, rfl⟩

/-- Counterexample to C2 as stated: the payload
`{"intent":"UNKNOWN","item":true}` triggers none of the spec's enumerated
failure conditions (backend ok, a decodable JSON span, a recognised tag,
and the intent is UNKNOWN), yet `parseIntent` raises (a `TypeError` from
`item.toLowerCase`). -/
theorem parseIntent_unknown_item_counterexample :
    (∃ e, parseIntent (.ok "\x7b\"intent\":\"UNKNOWN\",\"item\":true\x7d")
        (fun _ => .ok (.obj [("intent", .str "UNKNOWN"), ("item", .bool true)])) = .error e)
    ∧ ¬ parseIntentFailureSpec (.ok "\x7b\"intent\":\"UNKNOWN\",\"item\":true\x7d")
        (fun _ => .ok (.obj [("intent", .str "UNKNOWN"), ("item", .bool true)])) := by
  constructor
  · exact ⟨"TypeError: parsed.item.toLowerCase is not a function", rfl⟩
  · rintro (⟨e, habs⟩ | ⟨raw, hraw, hin⟩)
    · exact Except.noConfusion habs
    · injection hraw with hraw
      subst hraw
      have hjmval : jsMatch jsonSpanRE ("\x7b\"intent\":\"UNKNOWN\",\"item\":true\x7d").toList =
          some (("\x7b\"intent\":\"UNKNOWN\",\"item\":true\x7d").toList, none) := by decide
      rcases hin with hnone | ⟨span, cap, hsome, hrest⟩
      · rw [hjmval] at hnone
        exact Option.noConfusion hnone
      · rw [hjmval] at hsome
        injection hsome with hsome
        injection hsome with h1 h2
        subst h1
        subst h2
        rcases hrest with ⟨e, hjpe⟩ | ⟨parsed, hjpok, hrej⟩
        · exact Except.noConfusion hjpe
        · injection hjpok with hp
          subst hp
          rcases hrej with hng | ⟨t, ht, hne, _⟩
          · exact hng ⟨"UNKNOWN", by decide, by decide⟩
          · have htag : tagOf (.obj [("intent", JsVal.str "UNKNOWN"), ("item", JsVal.bool true)]) =
                some "UNKNOWN" := by decide
            rw [htag] at ht
            injection ht with ht
            subst ht
            exact hne rfl

/-- Witness for the amended C2 at a concrete success input. -/
theorem parseIntent_error_contract_witness :
    ValidParsedIntent ⟨"ADD_ITEM", some "milk", .null, .str "en", "llm"⟩ :=
  (parseIntent_error_contract
    (.ok "\x7b\"intent\":\"ADD_ITEM\",\"item\":\"milk\",\"quantity\":null,\"language\":\"en\"\x7d")
    (fun _ => .ok (.obj [("intent", .str "ADD_ITEM"), ("item", .str "milk"),
                         ("quantity", .null), ("language", .str "en")]))).2
    ⟨"ADD_ITEM", some "milk", .null, .str "en", "llm"⟩ (by rfl)

/-- C8 (amended): every intent record `parseIntent` produces has a quantity
that is either absent (`null`) or a number — the extractor's only check is
`typeof quantity === "number"`, so positivity and integrality are not
enforced — and an absent quantity is applied as `1` by the route's ADD
case. -/
theorem parseIntent_quantity_shape (qr : Except String String)
    (jp : String → Except String JsVal) (rec : ParsedIntent)
    (h : parseIntent qr jp = .ok rec) :
    (rec.quantity = .null ∨ ∃ x : ℚ, rec.quantity = .num x)
    ∧ (rec.quantity = .null → appliedAddQty rec.quantity = 1) := by
  have hq : rec.quantity = .null ∨ ∃ x : ℚ, rec.quantity = .num x := by
    unfold parseIntent at h
    cases hex : extractIntentViaLLM qr jp with
    | error e =>
      rw [hex] at h
      exact Except.noConfusion h
    | ok r =>
      rw [hex] at h
      injection h with h
      subst h
      cases qr with
      | error e => exact Except.noConfusion hex
      | ok raw =>
        simp only [extractIntentViaLLM] at hex
        cases hjm : jsMatch jsonSpanRE raw.toList with
        | none =>
          rw [hjm] at hex
          exact Except.noConfusion hex
        | some pr =>
          obtain ⟨span, cap⟩ := pr
          rw [hjm] at hex
          dsimp only at hex
          cases hjp : jp (String.mk span) with
          | error e =>
            rw [hjp] at hex
            exact Except.noConfusion hex
          | ok parsed =>
            rw [hjp] at hex
            exact validateAndBuild_quantity hex
  refine ⟨hq, ?_⟩
  intro h0
  rw [h0]
  rfl

/-- Counterexample to C8 as stated: the payload carries `quantity: -3`,
the extractor passes it through unvalidated, and `-3` is not a positive
integer. -/
theorem parseIntent_quantity_counterexample :
    parseIntent
        (.ok "\x7b\"intent\":\"ADD_ITEM\",\"item\":\"milk\",\"quantity\":-3,\"language\":\"en\"\x7d")
        (fun _ => .ok (.obj [("intent", .str "ADD_ITEM"), ("item", .str "milk"),
                             ("quantity", .num (-3)), ("language", .str "en")])) =
      .ok ⟨"ADD_ITEM", some "milk", .num (-3), .str "en", "llm"⟩
    ∧ ¬((JsVal.num (-3) = JsVal.null)
        ∨ ∃ n : ℕ, 0 < n ∧ JsVal.num (-3) = JsVal.num (n : ℚ)) := by
  constructor
  · rfl
  · rintro (h | ⟨n, hn, h⟩)
    · exact JsVal.noConfusion h
    · injection h with h
      have h0 : (0:ℚ) ≤ (n : ℚ) := Nat.cast_nonneg n
      rw [← h] at h0
      norm_num at h0

/-- Witness for the amended C8 at a concrete input with absent quantity. -/
theorem parseIntent_quantity_shape_witness :
    (JsVal.null = JsVal.null ∨ ∃ x : ℚ, JsVal.null = JsVal.num x)
    ∧ (JsVal.null = JsVal.null → appliedAddQty JsVal.null = 1) :=
  parseIntent_quantity_shape
    (.ok "\x7b\"intent\":\"ADD_ITEM\",\"item\":\"rice\",\"quantity\":null,\"language\":\"en\"\x7d")
    (fun _ => .ok (.obj [("intent", .str "ADD_ITEM"), ("item", .str "rice"),
                         ("quantity", .null), ("language", .str "en")]))
    ⟨"ADD_ITEM", some "rice", .null, .str "en", "llm"⟩ (by rfl)

/-- C4 (amended): the output parsing of the intent extractor selects the
span from the FIRST opening brace of the raw text through the LAST closing
brace (the regex `/\{[\s\S]*\}/` is greedy) and hands exactly that span to
the decoder; so prose before the first brace and close-brace-free prose
after the object are tolerated, but further closing braces after the first
balanced object extend the decoded span. -/
theorem jsonSpan_selection (a u v : List Char) (jp : String → Except String JsVal)
    (ha : openBraceCh ∉ a) (hv : closeBraceCh ∉ v) :
    jsMatch jsonSpanRE (a ++ openBraceCh :: (u ++ closeBraceCh :: v)) =
      some (openBraceCh :: (u ++ [closeBraceCh]), none)
    ∧ extractIntentViaLLM (.ok (String.mk (a ++ openBraceCh :: (u ++ closeBraceCh :: v)))) jp =
        (match jp (String.mk (openBraceCh :: (u ++ [closeBraceCh]))) with
         | .error e => .error e
         | .ok parsed => validateAndBuild parsed) := by
  have h1 := jsMatch_jsonSpan_greedy a u v ha hv
  refine ⟨h1, ?_⟩
  simp only [extractIntentViaLLM]
  rw [show (String.mk (a ++ openBraceCh :: (u ++ closeBraceCh :: v))).toList
      = a ++ openBraceCh :: (u ++ closeBraceCh :: v) from rfl, h1]

/-- Counterexample to C4 as stated: on a raw reply with a second balanced
object after the first, the selected span is NOT the first balanced span —
it runs through the last closing brace. -/
theorem jsonSpan_not_firstBalanced :
    (jsMatch jsonSpanRE ("\x7b\"a\":1\x7d and \x7b\"b\":2\x7d").toList).map (fun r => String.mk r.1)
      ≠ firstBalancedSpan "\x7b\"a\":1\x7d and \x7b\"b\":2\x7d"
    ∧ firstBalancedSpan "\x7b\"a\":1\x7d and \x7b\"b\":2\x7d" = some "\x7b\"a\":1\x7d"
    ∧ (jsMatch jsonSpanRE ("\x7b\"a\":1\x7d and \x7b\"b\":2\x7d").toList).map (fun r => String.mk r.1)
      = some "\x7b\"a\":1\x7d and \x7b\"b\":2\x7d" :=
  ⟨by decide, by decide, by decide⟩

/-- Witness for the amended C4 at a concrete raw reply with surrounding
prose. -/
theorem jsonSpan_selection_witness :
    jsMatch jsonSpanRE
        ("reply: ".toList ++ openBraceCh :: ("\"a\":1".toList ++ closeBraceCh :: " tail".toList)) =
      some (openBraceCh :: ("\"a\":1".toList ++ [closeBraceCh]), none)
    ∧ extractIntentViaLLM
        (.ok (String.mk
          ("reply: ".toList ++ openBraceCh :: ("\"a\":1".toList ++ closeBraceCh :: " tail".toList))))
        (fun _ => .ok .null) =
        (match (fun (_ : String) => (Except.ok JsVal.null : Except String JsVal))
            (String.mk (openBraceCh :: ("\"a\":1".toList ++ [closeBraceCh]))) with
         | .error e => .error e
         | .ok parsed => validateAndBuild parsed) :=
  jsonSpan_selection ("reply: ".toList) ("\"a\":1".toList) (" tail".toList)
    (fun _ => .ok .null) (by decide) (by decide)

end VoiceShop
